import Mathlib

/-!
Verification of the solaudit pattern-matching and aggregation engine
(`src/auditor.ts`).

The engine is embedded shallowly:

* JavaScript `RegExp` literals become `Regex` terms; their matching
  semantics (backtracking, greedy quantifiers, leftmost match, the
  `lastIndex` protocol of `exec`/`test` on `/g` regexes) are given by an
  executable fuel-indexed matcher `runs`.  The fuel decreases on every
  recursive call; `fuelFor` over-provisions it so that, for the catalog's
  patterns (whose quantified sub-patterns always consume at least one
  character per iteration), the fuel never runs out and the matcher agrees
  with the JavaScript semantics.  As in the ECMAScript specification, a
  repetition iteration that consumes no characters ends the repetition.
* File contents are `List Char`; the file system is a partial map
  `String → Option (List Char)`; `fs.readFileSync` throwing becomes
  `Except String` with the offending path as the error value.
* The module-level `GAS_PATTERNS` regexes keep their `lastIndex` between
  calls (the source calls `.test` directly on the shared objects), so the
  gas scanner is modelled with an explicit state `GasState`, one saved
  `lastIndex` per gas pattern, threaded through `analyzeGas`,
  `analyzeContract` and `auditFiles`.  A process start corresponds to the
  state `freshGas` (all zeros).
-/

set_option maxRecDepth 10000

namespace Solaudit

/-! ## Characters and character classes -/

/-- JavaScript `\w`: `[A-Za-z0-9_]`. -/
def isWordChar (c : Char) : Bool :=
  (decide ('a' ≤ c) && decide (c ≤ 'z')) ||
  (decide ('A' ≤ c) && decide (c ≤ 'Z')) ||
  (decide ('0' ≤ c) && decide (c ≤ '9')) ||
  c == '_'

/-- JavaScript `\s`: WhiteSpace plus LineTerminator code points. -/
def isJsSpace (c : Char) : Bool :=
  c == ' ' || c == '\t' || c == '\n' || c == '\r' ||
  c == '\x0b' || c == '\x0c' ||
  c.toNat == 0xa0 || c.toNat == 0x1680 ||
  (decide (0x2000 ≤ c.toNat) && decide (c.toNat ≤ 0x200a)) ||
  c.toNat == 0x2028 || c.toNat == 0x2029 || c.toNat == 0x202f ||
  c.toNat == 0x205f || c.toNat == 0x3000 || c.toNat == 0xfeff

/-- JavaScript LineTerminator (what `.` does not match). -/
def isLineTerminator (c : Char) : Bool :=
  c == '\n' || c == '\r' || c.toNat == 0x2028 || c.toNat == 0x2029

/-- One item of a character class `[...]`. -/
inductive CItem where
  | ch (c : Char)
  | range (lo hi : Char)
  | word
  | space
deriving DecidableEq

def memCItem (c : Char) : CItem → Bool
  | .ch d => c == d
  | .range lo hi => decide (lo ≤ c) && decide (c ≤ hi)
  | .word => isWordChar c
  | .space => isJsSpace c

/-! ## Regular expressions

The abstract syntax covers exactly the constructs used by the catalog in
`src/auditor.ts`: literals, character classes, `.`, concatenation,
alternation, greedy `*` `+` `?`, capturing groups, backreferences,
lookahead `(?=...)`/`(?!...)`, the single-character negative lookbehind
`(?<!c)`, and the word boundary `\b`. -/

inductive Regex where
  | eps
  | lit (c : Char)
  | cls (neg : Bool) (items : List CItem)
  | dot
  | cat (r1 r2 : Regex)
  | alt (r1 r2 : Regex)
  | star (r : Regex)
  | opt (r : Regex)
  | group (n : Nat) (r : Regex)
  | backref (n : Nat)
  | look (positive : Bool) (r : Regex)
  | lookbehindNot (c : Char)
  | wordB
deriving DecidableEq

/-- Capture environment: group number to captured text (most recent first). -/
abbrev Caps := List (Nat × List Char)

def capText (caps : Caps) (n : Nat) : List Char :=
  ((caps.find? (fun p => p.1 == n)).map (fun p => p.2)).getD []

/-- Does the text `t` occur in `s` starting at index `i`? -/
def occursAt (s : List Char) (i : Nat) (t : List Char) : Bool :=
  (s.drop i).take t.length == t

def sizeR : Regex → Nat
  | .eps => 1
  | .lit _ => 1
  | .cls _ _ => 1
  | .dot => 1
  | .cat a b => sizeR a + sizeR b + 1
  | .alt a b => sizeR a + sizeR b + 1
  | .star r => sizeR r + 1
  | .opt r => sizeR r + 1
  | .group _ r => sizeR r + 1
  | .backref _ => 1
  | .look _ r => sizeR r + 1
  | .lookbehindNot _ => 1
  | .wordB => 1

/-- Backtracking matcher.  `runs s fuel re i caps` returns, in the order a
JavaScript backtracking engine would try them (greedy, first alternative
first), the end positions (with updated captures) of all ways `re` can
match in `s` starting at position `i`.  The head of the list is therefore
the match the JavaScript engine commits to. -/
def runs (s : List Char) : Nat → Regex → Nat → Caps → List (Nat × Caps)
  | 0, _, _, _ => []
  | _ + 1, .eps, i, caps => [(i, caps)]
  | _ + 1, .lit c, i, caps =>
    match s[i]? with
    | some d => if d == c then [(i + 1, caps)] else []
    | none => []
  | _ + 1, .cls neg items, i, caps =>
    match s[i]? with
    | some d => if (items.any (memCItem d)) != neg then [(i + 1, caps)] else []
    | none => []
  | _ + 1, .dot, i, caps =>
    match s[i]? with
    | some d => if isLineTerminator d then [] else [(i + 1, caps)]
    | none => []
  | fuel + 1, .cat r1 r2, i, caps =>
    (runs s fuel r1 i caps).flatMap (fun p => runs s fuel r2 p.1 p.2)
  | fuel + 1, .alt r1 r2, i, caps =>
    runs s fuel r1 i caps ++ runs s fuel r2 i caps
  | fuel + 1, .star r, i, caps =>
    (((runs s fuel r i caps).filter (fun p => i < p.1)).flatMap
      (fun p => runs s fuel (.star r) p.1 p.2)) ++ [(i, caps)]
  | fuel + 1, .opt r, i, caps =>
    runs s fuel r i caps ++ [(i, caps)]
  | fuel + 1, .group n r, i, caps =>
    (runs s fuel r i caps).map (fun p => (p.1, (n, (s.drop i).take (p.1 - i)) :: p.2))
  | _ + 1, .backref n, i, caps =>
    let t := capText caps n
    if occursAt s i t then [(i + t.length, caps)] else []
  | fuel + 1, .look positive r, i, caps =>
    if (runs s fuel r i caps).isEmpty != positive then [(i, caps)] else []
  | _ + 1, .lookbehindNot c, i, caps =>
    if i = 0 then [(i, caps)]
    else
      match s[i - 1]? with
      | some d => if d == c then [] else [(i, caps)]
      | none => [(i, caps)]
  | _ + 1, .wordB, i, caps =>
    let before :=
      if i = 0 then false
      else match s[i - 1]? with
        | some d => isWordChar d
        | none => false
    let after :=
      match s[i]? with
      | some d => isWordChar d
      | none => false
    if before != after then [(i, caps)] else []

/-- Fuel that is always sufficient for the catalog's patterns: the depth of
any backtracking path is bounded by the pattern size times the number of
characters a repetition chain can consume. -/
def fuelFor (s : List Char) (re : Regex) : Nat :=
  (sizeR re + 2) * (s.length + 2)

/-- Leftmost match at or after position `i`, trying at most `rem` start
positions: returns `(start, end)` of the first match a JavaScript engine
would report. -/
def firstMatchAux (s : List Char) (re : Regex) : Nat → Nat → Option (Nat × Nat)
  | _, 0 => none
  | i, rem + 1 =>
    match (runs s (fuelFor s re) re i []).head? with
    | some p => some (i, p.1)
    | none => firstMatchAux s re (i + 1) rem

/-- JavaScript `regex.exec(s)` search step for a `/g` regex whose
`lastIndex` is `pos`: the leftmost match starting at or after `pos`
(`none` when `pos` is past the end or no match remains). -/
def firstMatchFrom (s : List Char) (re : Regex) (pos : Nat) : Option (Nat × Nat) :=
  firstMatchAux s re pos (s.length + 1 - pos)

/-- The `while ((match = regex.exec(content)) !== null)` loop of
`analyzeContract`, on a freshly instantiated regex: all matches, resuming
each search at the previous match's end.  The iteration bound `rem` is
`s.length + 1` at the top level; it can only be reached by a pattern with
empty matches, on which the JavaScript loop would not terminate at all. -/
def execAllAux (s : List Char) (re : Regex) : Nat → Nat → List (Nat × Nat)
  | _, 0 => []
  | pos, rem + 1 =>
    match firstMatchFrom s re pos with
    | none => []
    | some m => m :: execAllAux s re m.2 rem

def execAll (s : List Char) (re : Regex) : List (Nat × Nat) :=
  execAllAux s re 0 (s.length + 1)

/-- JavaScript `regex.test(s)` on a `/g` regex with saved `lastIndex`:
returns the outcome and the new `lastIndex` (the match end on success,
`0` on failure). -/
def testG (s : List Char) (re : Regex) (last : Nat) : Bool × Nat :=
  match firstMatchFrom s re last with
  | some m => (true, m.2)
  | none => (false, 0)

/-! Convenience constructors used to transliterate the regex literals. -/

/-- Concatenation of a list of regexes. -/
def rseq : List Regex → Regex
  | [] => .eps
  | [r] => r
  | r :: rs => .cat r (rseq rs)

/-- A literal string. -/
def rstr (t : String) : Regex :=
  rseq (t.toList.map Regex.lit)

/-- Greedy `+`, as `r r*`. -/
def rplus (r : Regex) : Regex := .cat r (.star r)

/-- Class `\s`. -/
def wsp : Regex := .cls false [.space]
/-- Repetition `\s*`. -/
def wsp0 : Regex := .star wsp
/-- Repetition `\s+`. -/
def wsp1 : Regex := rplus wsp
/-- Class `\w`. -/
def wch : Regex := .cls false [.word]
/-- Repetition `\w+`. -/
def wch1 : Regex := rplus wch
/-- Class `[^c]`. -/
def notCh (c : Char) : Regex := .cls true [.ch c]

/-! ## Data model (`interface` declarations of `src/auditor.ts`) -/

structure VulnPattern where
  name : String
  category : String
  severity : String
  matcher : Regex
  description : String
  recommendation : String
deriving DecidableEq

structure GasPattern where
  title : String
  matcher : Regex
  description : String
  savings : String
deriving DecidableEq

/-- Element type of the list returned by `analyzeGas`. -/
structure GasFinding where
  title : String
  description : String
  savings : String
deriving DecidableEq

/-- The `interface Issue` record.  `code` is optional: present for vulnerability
findings, absent for gas findings. -/
structure Issue where
  file : String
  line : Nat
  severity : String
  category : String
  title : String
  description : String
  recommendation : String
  code : Option String
deriving DecidableEq

structure Summary where
  critical : Nat
  high : Nat
  medium : Nat
  low : Nat
  gas : Nat
deriving DecidableEq

structure AuditResult where
  files : List String
  issues : List Issue
  summary : Summary
deriving DecidableEq

/-- The `interface AuditOptions` record.  `minSeverity?: string` is optional. -/
structure AuditOptions where
  minSeverity : Option String
  includeGas : Bool
  includeBestPractices : Bool
deriving DecidableEq

/-! ## The pattern catalog (`VULNERABILITY_PATTERNS`)

Each matcher transliterates the JavaScript regex literal shown in its
comment. -/

/-- Matcher of `/\.call\x7b.*value.*\x7d\s*\(|\.call\.value\s*\(/g` -/
def reentrancyRe : Regex :=
  .alt
    (rseq [rstr ".call", .lit '\x7b', .star .dot, rstr "value", .star .dot,
           .lit '\x7d', wsp0, .lit '('])
    (rseq [rstr ".call.value", wsp0, .lit '('])

/-- Matcher of `/\.(call|send|transfer)\s*\([^)]*\)\s*;(?!\s*require)/g` -/
def uncheckedReturnRe : Regex :=
  rseq [ .lit '.',
         .group 1 (.alt (rstr "call") (.alt (rstr "send") (rstr "transfer"))),
         wsp0, .lit '(', .star (notCh ')'), .lit ')', wsp0, .lit ';',
         .look false (rseq [wsp0, rstr "require"]) ]

/-- Matcher of `/tx\.origin\s*==|require\s*\(\s*tx\.origin/g` -/
def txOriginRe : Regex :=
  .alt (rseq [rstr "tx.origin", wsp0, rstr "=="])
       (rseq [rstr "require", wsp0, .lit '(', wsp0, rstr "tx.origin"])

/-- Matcher of `/pragma\s+solidity\s*\^/g` -/
def floatingPragmaRe : Regex :=
  rseq [rstr "pragma", wsp1, rstr "solidity", wsp0, .lit '^']

/-- Matcher of `/selfdestruct\s*\(|suicide\s*\(/g` -/
def selfdestructRe : Regex :=
  .alt (rseq [rstr "selfdestruct", wsp0, .lit '('])
       (rseq [rstr "suicide", wsp0, .lit '('])

/-- Matcher of `/pragma\s+solidity\s*[\^~]?0\.[0-7]\./g` -/
def intOverflowRe : Regex :=
  rseq [rstr "pragma", wsp1, rstr "solidity", wsp0,
        .opt (.cls false [.ch '^', .ch '~']), rstr "0.",
        .cls false [.range '0' '7'], .lit '.']

/-- Matcher of `/delegatecall\s*\(/g` -/
def delegatecallRe : Regex :=
  rseq [rstr "delegatecall", wsp0, .lit '(']

/-- Matcher of `/block\.timestamp|now/g` -/
def timestampRe : Regex :=
  .alt (rstr "block.timestamp") (rstr "now")

/-- Matcher of `/keccak256\s*\([^)]*block\.(timestamp|number|difficulty|prevrandao)/g` -/
def weakRandomRe : Regex :=
  rseq [rstr "keccak256", wsp0, .lit '(', .star (notCh ')'), rstr "block.",
        .group 1 (.alt (rstr "timestamp")
          (.alt (rstr "number") (.alt (rstr "difficulty") (rstr "prevrandao"))))]

/-- Matcher of
`/function\s+\w+\s*\([^)]*address\s+\w+[^)]*\)\s*(?:public|external)[^\x7b]*\x7b(?![^\x7d]*require\s*\([^)]*!=\s*address\(0\))/g` -/
def zeroAddressRe : Regex :=
  rseq [rstr "function", wsp1, wch1, wsp0, .lit '(', .star (notCh ')'),
        rstr "address", wsp1, wch1, .star (notCh ')'), .lit ')', wsp0,
        .alt (rstr "public") (rstr "external"),
        .star (notCh '\x7b'), .lit '\x7b',
        .look false (rseq [.star (notCh '\x7d'), rstr "require", wsp0, .lit '(',
                           .star (notCh ')'), rstr "!=", wsp0, rstr "address(0)"])]

/-- Matcher of `/assembly\s*\x7b/g` -/
def assemblyRe : Regex :=
  rseq [rstr "assembly", wsp0, .lit '\x7b']

/-- Matcher of `/this\.balance|address\(this\)\.balance/g` -/
def forceEtherRe : Regex :=
  .alt (rstr "this.balance") (rstr "address(this).balance")

/-- Matcher of `/private\s+\w+\s+\w+\s*=/g` -/
def privateVarRe : Regex :=
  rseq [rstr "private", wsp1, wch1, wsp1, wch1, wsp0, .lit '=']

/-- Matcher of `/function\s+\w+\s*\([^)]*\)\s*(?:public|external)[^\x7d]*\b(owner|admin)\s*=/g` -/
def missingEventRe : Regex :=
  rseq [rstr "function", wsp1, wch1, wsp0, .lit '(', .star (notCh ')'), .lit ')',
        wsp0, .alt (rstr "public") (rstr "external"), .star (notCh '\x7d'), .wordB,
        .group 1 (.alt (rstr "owner") (rstr "admin")), wsp0, .lit '=']

/-- Matcher of `/\bstruct\s+\w+\s+storage\s+\w+\s*;/g` -/
def uninitStorageRe : Regex :=
  rseq [.wordB, rstr "struct", wsp1, wch1, wsp1, rstr "storage", wsp1, wch1,
        wsp0, .lit ';']

/-- The constant `VULNERABILITY_PATTERNS`, in source order. -/
def VULNERABILITY_PATTERNS : List VulnPattern :=
  [ ⟨"Reentrancy", "security", "critical", reentrancyRe,
     "External call before state update may allow reentrancy",
     "Use checks-effects-interactions pattern or ReentrancyGuard"⟩,
    ⟨"Unchecked Return Value", "security", "high", uncheckedReturnRe,
     "Return value of low-level call not checked",
     "Check return value: require(success, \"Call failed\")"⟩,
    ⟨"tx.origin Authentication", "security", "high", txOriginRe,
     "Using tx.origin for authentication is vulnerable to phishing",
     "Use msg.sender instead of tx.origin"⟩,
    ⟨"Floating Pragma", "best-practice", "low", floatingPragmaRe,
     "Using floating pragma allows different compiler versions",
     "Lock pragma to specific version: pragma solidity 0.8.20;"⟩,
    ⟨"Unprotected Selfdestruct", "security", "critical", selfdestructRe,
     "selfdestruct can be called, potentially destroying contract",
     "Add access control or remove selfdestruct"⟩,
    ⟨"Potential Integer Overflow", "security", "high", intOverflowRe,
     "Solidity < 0.8 requires SafeMath for overflow protection",
     "Upgrade to Solidity 0.8+ or use SafeMath"⟩,
    ⟨"Dangerous Delegatecall", "security", "critical", delegatecallRe,
     "Delegatecall can execute arbitrary code in caller context",
     "Validate target address, avoid user-controlled delegatecall"⟩,
    ⟨"Timestamp Dependence", "security", "medium", timestampRe,
     "block.timestamp can be manipulated by miners",
     "Avoid using for critical logic, use block.number for intervals"⟩,
    ⟨"Weak Randomness", "security", "high", weakRandomRe,
     "Block variables are predictable, not suitable for randomness",
     "Use Chainlink VRF or commit-reveal scheme"⟩,
    ⟨"Missing Zero Address Check", "best-practice", "medium", zeroAddressRe,
     "Address parameters not validated for zero address",
     "Add require(addr != address(0), \"Zero address\")"⟩,
    ⟨"Inline Assembly", "security", "medium", assemblyRe,
     "Inline assembly bypasses Solidity safety checks",
     "Document thoroughly and review carefully"⟩,
    ⟨"Force Send Ether", "security", "medium", forceEtherRe,
     "Contract balance can be manipulated via selfdestruct",
     "Track deposits with internal accounting"⟩,
    ⟨"Private State Variable", "best-practice", "low", privateVarRe,
     "Private variables are still readable on-chain",
     "Never store secrets in contract storage"⟩,
    ⟨"Missing Event Emission", "best-practice", "low", missingEventRe,
     "State changes should emit events for off-chain tracking",
     "Add event emissions for important state changes"⟩,
    ⟨"Uninitialized Storage Pointer", "security", "high", uninitStorageRe,
     "Uninitialized storage pointers can overwrite storage",
     "Initialize storage pointers or use memory"⟩ ]

/-! ## The gas idiom catalog (`GAS_PATTERNS`) -/

/-- Matcher of `/public\s+(\w+)\s+(\w+)\s*;(?=[^\x7d]*constructor[^\x7d]*\2\s*=)/g` -/
def gasImmutableRe : Regex :=
  rseq [rstr "public", wsp1, .group 1 wch1, wsp1, .group 2 wch1, wsp0, .lit ';',
        .look true (rseq [.star (notCh '\x7d'), rstr "constructor",
                          .star (notCh '\x7d'), .backref 2, wsp0, .lit '='])]

/-- Matcher of `/for\s*\([^;]*;\s*\w+\s*<\s*\w+\.length\s*;/g` -/
def gasCacheLengthRe : Regex :=
  rseq [rstr "for", wsp0, .lit '(', .star (notCh ';'), .lit ';', wsp0, wch1, wsp0,
        .lit '<', wsp0, wch1, rstr ".length", wsp0, .lit ';']

/-- Matcher of `/\w+\+\+(?!\s*\))|(?<!\()\+\+\w+/g` -/
def gasIncrementRe : Regex :=
  .alt (rseq [wch1, rstr "++", .look false (rseq [wsp0, .lit ')'])])
       (rseq [.lookbehindNot '(', rstr "++", wch1])

/-- Matcher of `/function\s+\w+\s*\([^)]*\[\]\s+memory/g` -/
def gasCalldataRe : Regex :=
  rseq [rstr "function", wsp1, wch1, wsp0, .lit '(', .star (notCh ')'),
        rstr "[]", wsp1, rstr "memory"]

/-- Matcher of `/struct\s+\w+\s*\x7b[^\x7d]*uint256[^\x7d]*uint8[^\x7d]*uint256/g` -/
def gasPackStructRe : Regex :=
  rseq [rstr "struct", wsp1, wch1, wsp0, .lit '\x7b', .star (notCh '\x7d'),
        rstr "uint256", .star (notCh '\x7d'), rstr "uint8",
        .star (notCh '\x7d'), rstr "uint256"]

/-- Matcher of `/require\s*\([^,]+,\s*"[^"]+"\)/g` -/
def gasCustomErrorRe : Regex :=
  rseq [rstr "require", wsp0, .lit '(', rplus (notCh ','), .lit ',', wsp0,
        .lit '\"', rplus (notCh '\"'), .lit '\"', .lit ')']

/-- Matcher of `/(\w+)\s*=\s*0\s*;[^\x7d]*\1\s*=/g` -/
def gasZeroWriteRe : Regex :=
  rseq [.group 1 wch1, wsp0, .lit '=', wsp0, .lit '0', wsp0, .lit ';',
        .star (notCh '\x7d'), .backref 1, wsp0, .lit '=']

/-- Matcher of `/for\s*\([^)]*\)\s*\x7b(?![^\x7d]*unchecked)/g` -/
def gasUncheckedLoopRe : Regex :=
  rseq [rstr "for", wsp0, .lit '(', .star (notCh ')'), .lit ')', wsp0, .lit '\x7b',
        .look false (rseq [.star (notCh '\x7d'), rstr "unchecked"])]

/-- The constant `GAS_PATTERNS`, in source order. -/
def GAS_PATTERNS : List GasPattern :=
  [ ⟨"Use immutable for constants set in constructor", gasImmutableRe,
     "Variables set once in constructor can be immutable",
     "~2100 gas per read"⟩,
    ⟨"Cache array length in loops", gasCacheLengthRe,
     "Reading array.length in each iteration costs extra gas",
     "~100 gas per iteration"⟩,
    ⟨"Use ++i instead of i++", gasIncrementRe,
     "Pre-increment is cheaper than post-increment",
     "~5 gas per operation"⟩,
    ⟨"Use calldata for external function arrays", gasCalldataRe,
     "calldata is cheaper than memory for read-only arrays",
     "~600 gas per call"⟩,
    ⟨"Pack struct variables", gasPackStructRe,
     "Group smaller types together to use fewer storage slots",
     "~20000 gas per slot saved"⟩,
    ⟨"Use custom errors instead of strings", gasCustomErrorRe,
     "Custom errors are cheaper than string messages",
     "~50 gas per error"⟩,
    ⟨"Avoid zero to non-zero storage writes", gasZeroWriteRe,
     "Setting storage from 0 to non-zero is expensive",
     "~20000 gas difference"⟩,
    ⟨"Use unchecked for safe arithmetic", gasUncheckedLoopRe,
     "Loop counters rarely overflow, can use unchecked",
     "~30 gas per operation"⟩ ]

/-! ## Line bookkeeping (`content.split('\n')`, `String.prototype.trim`) -/

/-- JavaScript `content.split('\n')` on the character list. -/
def splitNl : List Char → List (List Char)
  | [] => [[]]
  | c :: cs =>
    let r := splitNl cs
    if c = '\n' then [] :: r else (c :: r.headD []) :: r.tail

/-- JavaScript `String.prototype.trim` (strips `\s`-class characters from
both ends). -/
def trimChars (l : List Char) : List Char :=
  (((l.dropWhile isJsSpace).reverse).dropWhile isJsSpace).reverse

/-! ## The Scan Engine (`SolidityAuditor`)

`analyzeGas` calls `pattern.pattern.test(content)` directly on the shared
module-level `/g` regex objects, so their `lastIndex` properties survive
between calls; `GasState` holds one saved `lastIndex` per entry of
`GAS_PATTERNS`, in catalog order. -/

abbrev GasState := List Nat

/-- The state at process start: every `lastIndex` is `0`. -/
def freshGas : GasState := GAS_PATTERNS.map (fun _ => 0)

/-- Loop of `analyzeGas`, one catalog entry at a time: `test` each pattern against
the whole content with its saved `lastIndex`, emit one finding per pattern
that reports a match. -/
def analyzeGasAux (s : List Char) : List GasPattern → List Nat → List GasFinding × List Nat
  | [], _ => ([], [])
  | p :: ps, st =>
    let t := testG s p.matcher (st.headD 0)
    let rest := analyzeGasAux s ps st.tail
    ((if t.1 then [⟨p.title, p.description, p.savings⟩] else []) ++ rest.1,
     t.2 :: rest.2)

/-- The method `analyzeGas(content)`, with the shared regex state made explicit. -/
def analyzeGas (s : List Char) (st : GasState) : List GasFinding × GasState :=
  analyzeGasAux s GAS_PATTERNS st

/-- The Issue built for one vulnerability-pattern match `m = (start, end)`:
`line` is `content.substring(0, match.index).split('\n').length`, `code` is
`lines[lineNum - 1]?.trim() || ''` (the `?.`/`|| ''` fallbacks collapse to
the trimmed line: the index is always in range, and the fallback value `''`
coincides with an empty trim result). -/
def mkVulnIssue (content : List Char) (file : String) (p : VulnPattern)
    (m : Nat × Nat) : Issue :=
  ⟨file, (splitNl (content.take m.1)).length, p.severity, p.category, p.name,
   p.description, p.recommendation,
   some (String.mk (trimChars
     ((splitNl content).getD ((splitNl (content.take m.1)).length - 1) [])))⟩

/-- The Issue built from one gas finding: file-level, line 0, severity
`low`, category `gas`, no `code`. -/
def mkGasIssue (file : String) (g : GasFinding) : Issue :=
  ⟨file, 0, "low", "gas", g.title, g.description,
   "Potential savings: " ++ g.savings, none⟩

/-- The vulnerability-pattern loop of `analyzeContract`: for each catalog
entry (skipping best-practice entries unless requested), run the fresh
regex over the whole content and emit one Issue per match. -/
def vulnIssues (o : AuditOptions) (content : List Char) (file : String) : List Issue :=
  VULNERABILITY_PATTERNS.flatMap (fun p =>
    if p.category == "best-practice" && !o.includeBestPractices then []
    else (execAll content p.matcher).map (mkVulnIssue content file p))

/-- The method `analyzeContract(content, file)`: vulnerability findings, then (when
gas analysis is requested) the gas findings mapped to Issues. -/
def analyzeContract (o : AuditOptions) (content : List Char) (file : String)
    (st : GasState) : List Issue × GasState :=
  let vis := vulnIssues o content file
  if o.includeGas then
    let g := analyzeGas content st
    (vis ++ g.1.map (mkGasIssue file), g.2)
  else (vis, st)

/-! ## The Aggregator (`auditFiles`) -/

/-- The field `severityOrder = ['low', 'medium', 'high', 'critical']`. -/
def severityOrder : List String := ["low", "medium", "high", "critical"]

/-- JavaScript `Array.prototype.indexOf`: index of the first occurrence of
the element, `-1` when absent. -/
def listIndexOf : List String → String → Int
  | [], _ => -1
  | y :: ys, x =>
    if y == x then 0
    else if listIndexOf ys x = -1 then -1 else listIndexOf ys x + 1

/-- Evaluation of `this.options.minSeverity || 'low'`: an absent or empty (falsy) string
defaults to `'low'`. -/
def effectiveMinSeverity (o : Option String) : String :=
  match o with
  | none => "low"
  | some sev => if sev = "" then "low" else sev

/-- The severity filter of `auditFiles`: keep issues whose severity index
is at least the configured minimum's index. -/
def filterBySeverity (minSev : Option String) (l : List Issue) : List Issue :=
  l.filter (fun i =>
    listIndexOf severityOrder (effectiveMinSeverity minSev) ≤
      listIndexOf severityOrder i.severity)

/-- The summary block of the `AuditResult`, computed from the filtered
issues. -/
def mkSummary (l : List Issue) : Summary :=
  ⟨(l.filter (fun i => i.severity == "critical")).length,
   (l.filter (fun i => i.severity == "high")).length,
   (l.filter (fun i => i.severity == "medium")).length,
   (l.filter (fun i => i.severity == "low")).length,
   (l.filter (fun i => i.category == "gas")).length⟩

/-- The read-and-scan loop of `auditFiles`: read each file in order
(`fs.readFileSync` throwing on an unreadable file becomes `Except.error`
naming the path) and concatenate the per-file `analyzeContract` results,
threading the shared gas-regex state. -/
def collectIssues (o : AuditOptions) (fsys : String → Option (List Char)) :
    List String → GasState → Except String (List Issue × GasState)
  | [], st => .ok ([], st)
  | f :: rest, st =>
    match fsys f with
    | none => .error f
    | some content =>
      match collectIssues o fsys rest (analyzeContract o content f st).2 with
      | .error e => .error e
      | .ok done => .ok ((analyzeContract o content f st).1 ++ done.1, done.2)

/-- The method `auditFiles(files)`: scan every file, filter by severity, compute the
summary. -/
def auditFiles (o : AuditOptions) (fsys : String → Option (List Char))
    (files : List String) (st : GasState) : Except String (AuditResult × GasState) :=
  match collectIssues o fsys files st with
  | .error e => .error e
  | .ok r =>
    .ok (⟨files, filterBySeverity o.minSeverity r.1,
          mkSummary (filterBySeverity o.minSeverity r.1)⟩, r.2)

/-! ## Basic lemmas -/

theorem splitNl_ne_nil (l : List Char) : splitNl l ≠ [] := by
  cases l with
  | nil => simp [splitNl]
  | cons c cs =>
    simp only [splitNl]
    split <;> simp

/-- Splitting: `content.split('\n').length` is one more than the number of newline
characters in the content. -/
theorem splitNl_length (l : List Char) : (splitNl l).length = 1 + l.count '\n' := by
  induction l with
  | nil => simp [splitNl]
  | cons c cs ih =>
    by_cases h : c = '\n' <;>
      simp [splitNl, h, List.count_cons, List.length_tail] <;> omega

theorem listIndexOf_ge_neg_one (l : List String) (x : String) :
    -1 ≤ listIndexOf l x := by
  induction l with
  | nil => simp [listIndexOf]
  | cons y ys ih =>
    rw [listIndexOf]
    split
    · omega
    · split <;> omega

/-- Every catalog entry carries one of the four recognised severities and a
category other than `gas`. -/
theorem catalog_wellformed :
    ∀ p ∈ VULNERABILITY_PATTERNS, p.severity ∈ severityOrder ∧ p.category ≠ "gas" := by
  decide

/-- Anatomy of `analyzeContract`'s output: every issue is either a
vulnerability-pattern match or a mapped gas finding. -/
theorem mem_analyzeContract (o : AuditOptions) (c : List Char) (f : String)
    (st : GasState) (i : Issue) (h : i ∈ (analyzeContract o c f st).1) :
    (∃ p, p ∈ VULNERABILITY_PATTERNS ∧ ∃ m, m ∈ execAll c p.matcher ∧
      i = mkVulnIssue c f p m) ∨ (∃ g, i = mkGasIssue f g) := by
  have hv : ∀ j, j ∈ vulnIssues o c f →
      ∃ p, p ∈ VULNERABILITY_PATTERNS ∧ ∃ m, m ∈ execAll c p.matcher ∧
        j = mkVulnIssue c f p m := by
    intro j hj
    rcases List.mem_flatMap.mp hj with ⟨p, hp, hjp⟩
    refine ⟨p, hp, ?_⟩
    split at hjp
    · simp at hjp
    · rcases List.mem_map.mp hjp with ⟨m, hm, hmk⟩
      exact ⟨m, hm, hmk.symm⟩
  rw [analyzeContract] at h
  split at h
  · rcases List.mem_append.mp h with h1 | h2
    · exact Or.inl (hv i h1)
    · rcases List.mem_map.mp h2 with ⟨g, _, hg⟩
      exact Or.inr ⟨g, hg.symm⟩
  · exact Or.inl (hv i h)

theorem analyzeContract_severity (o : AuditOptions) (c : List Char) (f : String)
    (st : GasState) (i : Issue) (h : i ∈ (analyzeContract o c f st).1) :
    i.severity ∈ severityOrder := by
  rcases mem_analyzeContract o c f st i h with ⟨p, hp, m, _, rfl⟩ | ⟨g, rfl⟩
  · simpa [mkVulnIssue] using (catalog_wellformed p hp).1
  · simp [mkGasIssue, severityOrder]

/-- In `analyzeContract`'s output, category `gas` forces severity `low`. -/
theorem analyzeContract_gas_low (o : AuditOptions) (c : List Char) (f : String)
    (st : GasState) (i : Issue) (h : i ∈ (analyzeContract o c f st).1)
    (hcat : i.category = "gas") : i.severity = "low" := by
  rcases mem_analyzeContract o c f st i h with ⟨p, hp, m, _, rfl⟩ | ⟨g, rfl⟩
  · exact absurd (by simpa [mkVulnIssue] using hcat) (catalog_wellformed p hp).2
  · simp [mkGasIssue]

theorem collectIssues_severity (o : AuditOptions) (fsys : String → Option (List Char)) :
    ∀ (files : List String) (st : GasState) (all : List Issue) (st' : GasState),
      collectIssues o fsys files st = Except.ok (all, st') →
      ∀ i ∈ all, i.severity ∈ severityOrder := by
  intro files
  induction files with
  | nil =>
    intro st all st' h i hi
    rw [collectIssues] at h
    cases h
    simp at hi
  | cons f rest ih =>
    intro st all st' h i hi
    rw [collectIssues] at h
    split at h
    · cases h
    · split at h
      · cases h
      · rename_i done hdone
        cases h
        rcases List.mem_append.mp hi with h1 | h2
        · exact analyzeContract_severity o _ f st i h1
        · exact ih _ done.1 done.2 hdone i h2

theorem collectIssues_gas_low (o : AuditOptions) (fsys : String → Option (List Char)) :
    ∀ (files : List String) (st : GasState) (all : List Issue) (st' : GasState),
      collectIssues o fsys files st = Except.ok (all, st') →
      ∀ i ∈ all, i.category = "gas" → i.severity = "low" := by
  intro files
  induction files with
  | nil =>
    intro st all st' h i hi
    rw [collectIssues] at h
    cases h
    simp at hi
  | cons f rest ih =>
    intro st all st' h i hi hcat
    rw [collectIssues] at h
    split at h
    · cases h
    · split at h
      · cases h
      · rename_i done hdone
        cases h
        rcases List.mem_append.mp hi with h1 | h2
        · exact analyzeContract_gas_low o _ f st i h1 hcat
        · exact ih _ done.1 done.2 hdone i h2 hcat

/-- On a list whose members all carry one of the four recognised
severities, the four severity buckets partition the list. -/
theorem severity_partition (l : List Issue)
    (h : ∀ i ∈ l, i.severity ∈ severityOrder) :
    (l.filter (fun i => i.severity == "critical")).length +
    (l.filter (fun i => i.severity == "high")).length +
    (l.filter (fun i => i.severity == "medium")).length +
    (l.filter (fun i => i.severity == "low")).length = l.length := by
  induction l with
  | nil => simp
  | cons a t ih =>
    have ha := h a (List.mem_cons_self a t)
    have iht := ih (fun i hi => h i (List.mem_cons_of_mem a hi))
    simp only [severityOrder, List.mem_cons, List.not_mem_nil, or_false] at ha
    rcases ha with h1 | h1 | h1 | h1 <;>
      simp [List.filter_cons, h1] <;> omega

/-- A filter with a (pointwise) weaker predicate keeps at least as many
elements. -/
theorem filter_length_mono (p q : Issue → Bool) (h : ∀ i, p i = true → q i = true) :
    ∀ l : List Issue, (l.filter p).length ≤ (l.filter q).length := by
  intro l
  induction l with
  | nil => simp
  | cons a t ih =>
    cases hq : q a with
    | false =>
      have hp : p a = false := by
        cases hpa : p a
        · rfl
        · rw [h a hpa] at hq; cases hq
      simp [List.filter_cons, hp, hq, ih]
    | true =>
      cases hp : p a <;> simp [List.filter_cons, hp, hq] <;> omega

/-- The method `analyzeContract` never reads `minSeverity`. -/
theorem analyzeContract_min_irrelevant (m1 m2 : Option String) (g b : Bool)
    (c : List Char) (f : String) (st : GasState) :
    analyzeContract ⟨m1, g, b⟩ c f st = analyzeContract ⟨m2, g, b⟩ c f st := rfl

/-- The read-and-scan loop never reads `minSeverity` either. -/
theorem collectIssues_min_irrelevant (m1 m2 : Option String) (g b : Bool)
    (fsys : String → Option (List Char)) :
    ∀ (files : List String) (st : GasState),
      collectIssues ⟨m1, g, b⟩ fsys files st = collectIssues ⟨m2, g, b⟩ fsys files st := by
  intro files
  induction files with
  | nil => intro st; rfl
  | cons f rest ih =>
    intro st
    rw [collectIssues, collectIssues]
    cases hf : fsys f with
    | none => rfl
    | some content =>
      simp only [ih]
      rfl

/-- The recognised severities sit at indices 0 to 3. -/
theorem listIndexOf_known (sev : String) (hsev : sev ∈ severityOrder) :
    (0 : Int) ≤ listIndexOf severityOrder sev := by
  simp only [severityOrder, List.mem_cons, List.not_mem_nil, or_false] at hsev
  rcases hsev with h1 | h1 | h1 | h1 <;> rw [h1] <;> decide

/-! ## Concrete fixtures used by the claim theorems and witnesses -/

/-- Content `"i++"`: matched (only) by the pre-increment gas pattern. -/
def incContent : List Char := "i++".toList

/-- Content `"now"`: matched (only) by the Timestamp Dependence pattern. -/
def nowContent : List Char := "now".toList

/-- The finding `analyzeContract` emits for `"now"`. -/
def nowIssue : Issue :=
  ⟨"a.sol", 1, "medium", "security", "Timestamp Dependence",
   "block.timestamp can be manipulated by miners",
   "Avoid using for critical logic, use block.number for intervals",
   some "now"⟩

/-- The finding `analyzeGas` emits for `"i++"`. -/
def incGasFinding : GasFinding :=
  ⟨"Use ++i instead of i++", "Pre-increment is cheaper than post-increment",
   "~5 gas per operation"⟩

def nowFs : String → Option (List Char) :=
  fun f => if f = "a.sol" then some nowContent else none

def incFs : String → Option (List Char) :=
  fun f => if f = "a.sol" then some incContent else none

def twoIncFs : String → Option (List Char) :=
  fun f => if f = "a.sol" || f = "b.sol" then some incContent else none

def noFs : String → Option (List Char) := fun _ => none

/-- The source text of the spec's concrete scenario 1. -/
def c9content : List Char := "pragma solidity ^0.8.0;\ncontract C \x7b\x7d".toList

/-- A two-line text whose single Unchecked Return Value match spans both
lines. -/
def c3content : List Char := "x.call(\na);".toList

/-- The gas-pattern `lastIndex` state after one `analyzeGas` over `"i++"`. -/
def incStateAfter : GasState := [0, 0, 3, 0, 0, 0, 0, 0]

def nowResultLow : AuditResult := ⟨["a.sol"], [nowIssue], ⟨0, 0, 1, 0, 0⟩⟩

def nowResultMedium : AuditResult := ⟨["a.sol"], [nowIssue], ⟨0, 0, 1, 0, 0⟩⟩

def nowResultHigh : AuditResult := ⟨["a.sol"], [], ⟨0, 0, 0, 0, 0⟩⟩

def incResultMedium : AuditResult := ⟨["a.sol"], [], ⟨0, 0, 0, 0, 0⟩⟩

/-! ## The claims -/

/-- C1: the claim says matcher state never leaks across scans — every
`analyzeGas` call behaves like a first call on a fresh auditor.  The code
violates this: `analyzeGas` calls `.test` on the shared module-level `/g`
regexes, whose `lastIndex` survives the call.  On the content `"i++"` a
first scan (from the fresh, all-zero state) emits the pre-increment
finding, but a second scan on the very same content starts the `++`
pattern at `lastIndex = 3` and emits nothing. -/
theorem C1_gas_state_leaks :
    (analyzeGas incContent freshGas).1 = [incGasFinding] ∧
    (analyzeGas incContent (analyzeGas incContent freshGas).2).1 = [] :=
  ⟨rfl, rfl⟩

/-- C2: the claim says `auditFiles` equals the severity-filtered
concatenation of independent `analyzeContract` runs, per file in order.
Via the shared gas-regex `lastIndex` this fails: auditing two files both
containing `"i++"` with gas analysis enabled emits the gas finding only
for the first file, while the independent (fresh-state) scans each emit
it. -/
theorem C2_not_compositional :
    (auditFiles ⟨none, true, false⟩ twoIncFs ["a.sol", "b.sol"] freshGas).map
      (fun r => r.1.issues) = Except.ok [mkGasIssue "a.sol" incGasFinding] ∧
    filterBySeverity none
      ((analyzeContract ⟨none, true, false⟩ incContent "a.sol" freshGas).1 ++
       (analyzeContract ⟨none, true, false⟩ incContent "b.sol" freshGas).1) =
      [mkGasIssue "a.sol" incGasFinding, mkGasIssue "b.sol" incGasFinding] :=
  ⟨rfl, rfl⟩

/-- C3 (counterexample): the claim says every finding's line is within
`[1, number of lines]` and the trimmed text of that line contains a
substring satisfying the producing pattern's matcher.  On
`"x.call(\na);"` the single Unchecked Return Value match spans both lines:
the finding is reported at line 1, whose trimmed text `"x.call("` contains
no match of that pattern at all. -/
theorem C3_counterexample :
    (analyzeContract ⟨none, false, false⟩ c3content "t.sol" freshGas).1 =
      [⟨"t.sol", 1, "high", "security", "Unchecked Return Value",
        "Return value of low-level call not checked",
        "Check return value: require(success, \"Call failed\")",
        some "x.call("⟩] ∧
    firstMatchFrom ("x.call(".toList) uncheckedReturnRe 0 = none :=
  ⟨rfl, rfl⟩

/-- C3 (amended): every vulnerability finding's line is within
`[1, number of lines of the text]`; gas findings instead carry line 0.
(The trimmed line text contains the start of the match, but need not
contain a full match when the match spans lines.) -/
theorem C3_line_in_range (o : AuditOptions) (content : List Char) (file : String)
    (st : GasState) (i : Issue) (h : i ∈ (analyzeContract o content file st).1) :
    (i.category = "gas" → i.line = 0) ∧
    (i.category ≠ "gas" → 1 ≤ i.line ∧ i.line ≤ (splitNl content).length) := by
  rcases mem_analyzeContract o content file st i h with ⟨p, hp, m, hm, rfl⟩ | ⟨g, rfl⟩
  · constructor
    · intro hcat
      exact absurd (by simpa [mkVulnIssue] using hcat) (catalog_wellformed p hp).2
    · intro _
      constructor
      · simp [mkVulnIssue, splitNl_length]
      · simp only [mkVulnIssue, splitNl_length]
        have := (List.take_sublist m.1 content).count_le '\n'
        omega
  · constructor
    · intro _; simp [mkGasIssue]
    · intro hcat; exact absurd (by simp [mkGasIssue]) hcat

/-- C3 witness (for the amended theorem): the Timestamp Dependence finding
on `"now"` has line 1 within the single-line range. -/
theorem C3_witness :
    nowIssue ∈ (analyzeContract ⟨none, false, false⟩ nowContent "a.sol" freshGas).1 ∧
    ((nowIssue.category = "gas" → nowIssue.line = 0) ∧
     (nowIssue.category ≠ "gas" →
        1 ≤ nowIssue.line ∧ nowIssue.line ≤ (splitNl nowContent).length)) :=
  ⟨by decide,
   C3_line_in_range ⟨none, false, false⟩ nowContent "a.sol" freshGas nowIssue
     (by decide)⟩

/-- C4: when gas analysis is requested but the configured minimum severity
is `medium`, `high` or `critical`, no `gas`-category finding survives into
`issues` — gas findings are hardcoded severity `low` and the filter keeps
only severities at or above the configured rank. -/
theorem C4_gas_excluded (mn : String)
    (hm : mn = "medium" ∨ mn = "high" ∨ mn = "critical") (b : Bool)
    (fsys : String → Option (List Char)) (files : List String) (st : GasState)
    (r : AuditResult) (st' : GasState)
    (h : auditFiles ⟨some mn, true, b⟩ fsys files st = Except.ok (r, st')) :
    ∀ i ∈ r.issues, i.category ≠ "gas" := by
  rw [auditFiles] at h
  split at h
  · cases h
  · rename_i p hc
    rw [Except.ok.injEq, Prod.mk.injEq] at h
    obtain ⟨hr, hst⟩ := h
    subst hr
    intro i hi hcat
    have hi' : i ∈ filterBySeverity (some mn) p.1 := hi
    rw [filterBySeverity, List.mem_filter] at hi'
    obtain ⟨hmem, hpred⟩ := hi'
    rw [decide_eq_true_eq] at hpred
    have hlow := collectIssues_gas_low ⟨some mn, true, b⟩ fsys files st p.1 p.2
      hc i hmem hcat
    rw [hlow] at hpred
    rcases hm with h1 | h1 | h1 <;> subst h1 <;>
      simp [severityOrder, effectiveMinSeverity, listIndexOf] at hpred

/-- C4 witness: auditing `"i++"` with gas analysis on and minimum severity
`medium` — the gas finding is produced and then filtered out. -/
theorem C4_witness :
    ("medium" = "medium" ∨ "medium" = "high" ∨ "medium" = "critical") ∧
    auditFiles ⟨some "medium", true, false⟩ incFs ["a.sol"] freshGas =
      Except.ok (incResultMedium, incStateAfter) ∧
    ∀ i ∈ incResultMedium.issues, i.category ≠ "gas" :=
  ⟨Or.inl rfl, rfl,
   C4_gas_excluded "medium" (Or.inl rfl) false incFs ["a.sol"] freshGas
     incResultMedium incStateAfter rfl⟩

/-- C5: if any file in the list cannot be read, `auditFiles` fails the
whole invocation with an error naming the first unreadable path
(`fs.readFileSync` throws and the exception propagates), and returns no
`AuditResult` at all. -/
theorem C5_read_failure_atomic (o : AuditOptions)
    (fsys : String → Option (List Char)) :
    ∀ (files : List String) (st : GasState), (∃ f ∈ files, fsys f = none) →
      ∃ p, files.find? (fun f => (fsys f).isNone) = some p ∧ fsys p = none ∧
        auditFiles o fsys files st = Except.error p := by
  intro files
  induction files with
  | nil =>
    intro st h
    simp at h
  | cons a rest ih =>
    intro st h
    cases ha : fsys a with
    | none =>
      refine ⟨a, ?_, ha, ?_⟩
      · simp [List.find?_cons, ha]
      · rw [auditFiles, collectIssues, ha]
    | some c =>
      have hrest : ∃ f ∈ rest, fsys f = none := by
        rcases h with ⟨f, hf, hnone⟩
        rcases List.mem_cons.mp hf with rfl | hmem
        · rw [ha] at hnone; cases hnone
        · exact ⟨f, hmem, hnone⟩
      rcases ih (analyzeContract o c a st).2 hrest with ⟨p, hfind, hnone, haud⟩
      have hcoll : collectIssues o fsys rest (analyzeContract o c a st).2 =
          Except.error p := by
        rw [auditFiles] at haud
        split at haud
        · rename_i e he
          rw [Except.error.injEq] at haud
          rw [he, haud]
        · cases haud
      refine ⟨p, ?_, hnone, ?_⟩
      · rw [List.find?_cons]
        simp [ha, hfind]
      · simp only [auditFiles, collectIssues, ha, hcoll]

/-- C5 witness: one unreadable path fails the audit with that path. -/
theorem C5_witness :
    (∃ f ∈ ["missing.sol"], noFs f = none) ∧
    (∃ p, ["missing.sol"].find? (fun f => (noFs f).isNone) = some p ∧
      noFs p = none ∧
      auditFiles ⟨none, false, false⟩ noFs ["missing.sol"] freshGas =
        Except.error p) :=
  ⟨⟨"missing.sol", by simp, rfl⟩,
   C5_read_failure_atomic ⟨none, false, false⟩ noFs ["missing.sol"] freshGas
     ⟨"missing.sol", by simp, rfl⟩⟩

/-- C6: every vulnerability finding comes from a concrete match of a
catalog pattern, its `line` is 1 plus the number of newline characters
before the match start, and its `code` is the trimmed text of that
line. -/
theorem C6_line_offset_code (o : AuditOptions) (content : List Char)
    (file : String) (st : GasState) (i : Issue)
    (h : i ∈ (analyzeContract o content file st).1) (hcat : i.category ≠ "gas") :
    ∃ p, p ∈ VULNERABILITY_PATTERNS ∧ ∃ m, m ∈ execAll content p.matcher ∧
      i = mkVulnIssue content file p m ∧
      i.line = 1 + (content.take m.1).count '\n' ∧
      i.code = some (String.mk (trimChars
        ((splitNl content).getD (i.line - 1) []))) := by
  rcases mem_analyzeContract o content file st i h with ⟨p, hp, m, hm, rfl⟩ | ⟨g, rfl⟩
  · exact ⟨p, hp, m, hm, rfl, by simp [mkVulnIssue, splitNl_length],
      by simp [mkVulnIssue]⟩
  · exact absurd (by simp [mkGasIssue]) hcat

/-- C6 witness: the Timestamp Dependence finding on `"now"`. -/
theorem C6_witness :
    nowIssue ∈ (analyzeContract ⟨none, false, false⟩ nowContent "a.sol" freshGas).1 ∧
    nowIssue.category ≠ "gas" ∧
    (∃ p, p ∈ VULNERABILITY_PATTERNS ∧ ∃ m, m ∈ execAll nowContent p.matcher ∧
      nowIssue = mkVulnIssue nowContent "a.sol" p m ∧
      nowIssue.line = 1 + (nowContent.take m.1).count '\n' ∧
      nowIssue.code = some (String.mk (trimChars
        ((splitNl nowContent).getD (nowIssue.line - 1) [])))) :=
  ⟨by decide, by decide,
   C6_line_offset_code ⟨none, false, false⟩ nowContent "a.sol" freshGas nowIssue
     (by decide) (by decide)⟩

/-- C7: in every successful `AuditResult`, the four severity buckets of
the summary sum to the number of issues. -/
theorem C7_summary_partition (o : AuditOptions)
    (fsys : String → Option (List Char)) (files : List String) (st : GasState)
    (r : AuditResult) (st' : GasState)
    (h : auditFiles o fsys files st = Except.ok (r, st')) :
    r.summary.critical + r.summary.high + r.summary.medium + r.summary.low =
      r.issues.length := by
  rw [auditFiles] at h
  split at h
  · cases h
  · rename_i p hc
    rw [Except.ok.injEq, Prod.mk.injEq] at h
    obtain ⟨hr, hst⟩ := h
    subst hr
    apply severity_partition
    intro i hi
    have hi' : i ∈ filterBySeverity o.minSeverity p.1 := hi
    rw [filterBySeverity, List.mem_filter] at hi'
    exact collectIssues_severity o fsys files st p.1 p.2 hc i hi'.1

/-- C7 witness: the audit of `"now"` has one medium issue and summary
`⟨0, 0, 1, 0, 0⟩`. -/
theorem C7_witness :
    auditFiles ⟨none, false, false⟩ nowFs ["a.sol"] freshGas =
      Except.ok (nowResultLow, freshGas) ∧
    nowResultLow.summary.critical + nowResultLow.summary.high +
      nowResultLow.summary.medium + nowResultLow.summary.low =
      nowResultLow.issues.length :=
  ⟨rfl, C7_summary_partition ⟨none, false, false⟩ nowFs ["a.sol"] freshGas
    nowResultLow freshGas rfl⟩

/-- C8: over the same input files and otherwise identical configuration,
raising the minimum severity can only shrink `issues`. -/
theorem C8_monotone (fsys : String → Option (List Char)) (files : List String)
    (st : GasState) (g b : Bool) (r1 r2 r3 : AuditResult) (s1 s2 s3 : GasState)
    (h1 : auditFiles ⟨some "high", g, b⟩ fsys files st = Except.ok (r1, s1))
    (h2 : auditFiles ⟨some "medium", g, b⟩ fsys files st = Except.ok (r2, s2))
    (h3 : auditFiles ⟨some "low", g, b⟩ fsys files st = Except.ok (r3, s3)) :
    r1.issues.length ≤ r2.issues.length ∧ r2.issues.length ≤ r3.issues.length := by
  rw [auditFiles] at h1 h2 h3
  rw [collectIssues_min_irrelevant (some "medium") (some "high") g b fsys files st] at h2
  rw [collectIssues_min_irrelevant (some "low") (some "high") g b fsys files st] at h3
  split at h1
  · cases h1
  · rename_i p hc
    rw [hc] at h2 h3
    rw [Except.ok.injEq, Prod.mk.injEq] at h1 h2 h3
    obtain ⟨hr1, _⟩ := h1
    obtain ⟨hr2, _⟩ := h2
    obtain ⟨hr3, _⟩ := h3
    subst hr1; subst hr2; subst hr3
    constructor
    · rw [filterBySeverity, filterBySeverity]
      apply filter_length_mono
      intro i hi
      rw [decide_eq_true_eq] at hi
      rw [decide_eq_true_eq]
      have e1 : listIndexOf severityOrder (effectiveMinSeverity (some "high")) = 2 := by
        decide
      have e2 : listIndexOf severityOrder (effectiveMinSeverity (some "medium")) = 1 := by
        decide
      rw [e1] at hi
      rw [e2]
      omega
    · rw [filterBySeverity, filterBySeverity]
      apply filter_length_mono
      intro i hi
      rw [decide_eq_true_eq] at hi
      rw [decide_eq_true_eq]
      have e2 : listIndexOf severityOrder (effectiveMinSeverity (some "medium")) = 1 := by
        decide
      have e3 : listIndexOf severityOrder (effectiveMinSeverity (some "low")) = 0 := by
        decide
      rw [e2] at hi
      rw [e3]
      omega

/-- C8 witness: `"now"` audited at the three thresholds gives 0, 1 and 1
issues. -/
theorem C8_witness :
    auditFiles ⟨some "high", false, false⟩ nowFs ["a.sol"] freshGas =
      Except.ok (nowResultHigh, freshGas) ∧
    auditFiles ⟨some "medium", false, false⟩ nowFs ["a.sol"] freshGas =
      Except.ok (nowResultMedium, freshGas) ∧
    auditFiles ⟨some "low", false, false⟩ nowFs ["a.sol"] freshGas =
      Except.ok (nowResultLow, freshGas) ∧
    (nowResultHigh.issues.length ≤ nowResultMedium.issues.length ∧
     nowResultMedium.issues.length ≤ nowResultLow.issues.length) :=
  ⟨rfl, rfl, rfl,
   C8_monotone nowFs ["a.sol"] freshGas false false nowResultHigh
     nowResultMedium nowResultLow freshGas freshGas freshGas rfl rfl rfl⟩

/-- C9: scanning `"pragma solidity ^0.8.0;\ncontract C \x7b\x7d"` with
best-practice checks enabled and gas disabled yields exactly one finding:
severity `low`, title Floating Pragma, line 1 — for any file label and any
gas-regex state. -/
theorem C9_scenario1 (file : String) (st : GasState) :
    (analyzeContract ⟨none, false, true⟩ c9content file st).1 =
      [⟨file, 1, "low", "best-practice", "Floating Pragma",
        "Using floating pragma allows different compiler versions",
        "Lock pragma to specific version: pragma solidity 0.8.20;",
        some "pragma solidity ^0.8.0;"⟩] := rfl

/-- C10: an absent minimum severity, or any string other than the four
recognised severities, disables filtering entirely: the issues of the
result are exactly the concatenated scan output. -/
theorem C10_no_filtering (o : AuditOptions) (fsys : String → Option (List Char))
    (files : List String) (st : GasState) (r : AuditResult) (st' : GasState)
    (hmin : o.minSeverity = none ∨
      ∃ sv, o.minSeverity = some sv ∧ sv ∉ severityOrder)
    (h : auditFiles o fsys files st = Except.ok (r, st')) :
    collectIssues o fsys files st = Except.ok (r.issues, st') := by
  rw [auditFiles] at h
  split at h
  · cases h
  · rename_i p hc
    rw [Except.ok.injEq, Prod.mk.injEq] at h
    obtain ⟨hr, hst⟩ := h
    subst hst
    have hfil : filterBySeverity o.minSeverity p.1 = p.1 := by
      rw [filterBySeverity]
      apply List.filter_eq_self.mpr
      intro i hi
      rw [decide_eq_true_eq]
      have hsev := collectIssues_severity o fsys files st p.1 p.2 hc i hi
      rcases hmin with h0 | ⟨sv, hsv, hnot⟩
      · rw [h0]
        have e0 : listIndexOf severityOrder (effectiveMinSeverity none) = 0 := by
          decide
        rw [e0]
        exact listIndexOf_known i.severity hsev
      · rw [hsv]
        by_cases hemp : sv = ""
        · subst hemp
          have e0 : listIndexOf severityOrder (effectiveMinSeverity (some "")) = 0 := by
            decide
          rw [e0]
          exact listIndexOf_known i.severity hsev
        · have hne : sv ≠ "low" ∧ sv ≠ "medium" ∧ sv ≠ "high" ∧ sv ≠ "critical" := by
            simpa [severityOrder] using hnot
          have emin : effectiveMinSeverity (some sv) = sv := by
            simp [effectiveMinSeverity, hemp]
          have e1 : listIndexOf severityOrder sv = -1 := by
            simp [severityOrder, listIndexOf, beq_iff_eq,
              Ne.symm hne.1, Ne.symm hne.2.1, Ne.symm hne.2.2.1, Ne.symm hne.2.2.2]
          rw [emin, e1]
          exact listIndexOf_ge_neg_one severityOrder i.severity
    rw [← hr]
    simp only [hfil]
    exact hc

/-- C10 witness: minimum severity `"bogus"` keeps the medium finding. -/
theorem C10_witness :
    ((⟨some "bogus", false, false⟩ : AuditOptions).minSeverity = none ∨
      ∃ sv, (⟨some "bogus", false, false⟩ : AuditOptions).minSeverity = some sv ∧
        sv ∉ severityOrder) ∧
    auditFiles ⟨some "bogus", false, false⟩ nowFs ["a.sol"] freshGas =
      Except.ok (nowResultLow, freshGas) ∧
    collectIssues ⟨some "bogus", false, false⟩ nowFs ["a.sol"] freshGas =
      Except.ok (nowResultLow.issues, freshGas) :=
  ⟨Or.inr ⟨"bogus", rfl, by decide⟩, rfl,
   C10_no_filtering ⟨some "bogus", false, false⟩ nowFs ["a.sol"] freshGas
     nowResultLow freshGas (Or.inr ⟨"bogus", rfl, by decide⟩) rfl⟩

end Solaudit
